import Mathlib

/-!
Verification of the BrainOps product automation engine (`src/automations.py`).

The trigger/dispatch core is shallowly embedded:

* `Automation` mirrors the `@dataclass Automation`.
* The registry (`self.automations`, an insertion-ordered `Dict[str, Automation]`)
  is modelled as a list of automations; `getAutomation` is `dict.get`, and
  `setAutomation` is the in-place mutation of the entry for one id (replacing
  every entry carrying that id, which coincides with dict semantics because
  dict keys are unique).
* Wall-clock time (`datetime.now()`) is modelled as a rational number of hours
  supplied through the environment; `timedelta(hours=h)` is addition of `h`.
* Action handlers perform external I/O; their return values are supplied by an
  oracle `handler : Automation → C → R` in the environment, where `C` is the
  type of context mappings and `R` the type of handler result payloads.
  Handler-level application failures are embedded inside `R` (the handler
  boundary never raises), matching the source contract.
* The persistence call (`_store_result`) is an external effect whose outcome
  (success, or an exception that the `try/except` swallows) is supplied by the
  oracle field `store`.
* Each dispatch additionally records a trace of the externally visible steps
  (`TraceEvent`), used to state ordering and "handler/persistence was (not)
  invoked" properties.
-/

namespace BrainOps

/-- Source `class AutomationLevel(Enum)`. -/
inductive AutomationLevel where
  | discovery
  | generation
  | optimization
  | scaling
deriving DecidableEq

/-- Source `class AutomationTrigger(Enum)`. -/
inductive AutomationTrigger where
  | scheduled
  | event
  | threshold
  | manual
deriving DecidableEq

/-- The `trigger_config: Dict` of an automation, restricted to the keys the
engine reads: `interval_hours` (Scheduled), `event` (Event), `metric` and
`threshold` (Threshold).  A missing key is `none`, matching `dict.get`. -/
structure TriggerConfig where
  interval_hours : Option ℚ := none
  event : Option String := none
  metric : Option String := none
  threshold : Option ℚ := none
deriving DecidableEq

/-- Source `@dataclass Automation`. -/
structure Automation where
  id : String
  name : String
  level : AutomationLevel
  trigger : AutomationTrigger
  trigger_config : TriggerConfig
  action : String
  ai_providers : List String
  enabled : Bool := true
  last_run : Option ℚ := none
  run_count : Nat := 0
deriving DecidableEq

/-- The registry state of `AutomationEngine`: `self.automations` as an
insertion-ordered keyed store. -/
structure AutomationEngine where
  automations : List Automation
deriving DecidableEq

/-- Registry lookup `self.automations.get(automation_id)`. -/
def getAutomation (st : AutomationEngine) (id : String) : Option Automation :=
  st.automations.find? (fun a => a.id == id)

/-- In-place mutation of the registry entry holding `a.id` (in the source the
dispatcher mutates the `Automation` object stored in the dict). -/
def setAutomation (st : AutomationEngine) (a : Automation) : AutomationEngine :=
  ⟨st.automations.map (fun b => if b.id == a.id then a else b)⟩

/-- Outcome of the external persistence call made by `_store_result`:
either the POST succeeds or it raises (the `except` branch). -/
inductive StoreOutcome where
  | success
  | failure
deriving DecidableEq

/-- Externally visible steps of one dispatch, used to state ordering and
invocation properties. -/
inductive TraceEvent where
  | handlerCall (action : String)
  | handlerReturn
  | updateLastRun
  | updateRunCount
  | persistAttempt (o : StoreOutcome)
deriving DecidableEq

/-- Oracle environment for one entry-point call: what each handler returns,
how the persistence backend behaves, the current wall-clock time (hours), and
the empty context used when `execute_automation` is called without one
(`context or {}`). -/
structure Env (C R : Type) where
  handler : Automation → C → R
  store : StoreOutcome
  now : ℚ
  emptyCtx : C

/-- Result dictionary returned by `execute_automation`: the three dispatch
error dicts, or whatever `_run_action`'s chosen handler returned. -/
inductive ExecResult (R : Type) where
  | notFound (id : String)
  | disabled (id : String)
  | unknownAction (action : String)
  | handler (r : R)
deriving DecidableEq

/-- The keys of the `action_handlers` table built in `_run_action`
(the Action Dispatch Table). -/
def actionHandlerNames : List String :=
  ["discover_market_gaps", "analyze_competitors", "detect_trends",
   "generate_template_product", "build_saas_feature", "create_content",
   "optimize_pricing", "optimize_copy", "enhance_features",
   "expand_to_new_markets", "clone_successful_product",
   "create_affiliate_program"]

/-- Test that `action_handlers.get(automation.action)` is not `None`. -/
def hasHandler (action : String) : Bool :=
  actionHandlerNames.contains action

/-- Source `_run_action(automation, context)`: look the action up in the dispatch
table; if a handler exists, await it, else return the
`{"error": "Unknown action: ..."}` dict.  Also returns the trace of handler
invocation. -/
def run_action {C R : Type} (env : Env C R) (a : Automation) (ctx : C) :
    ExecResult R × List TraceEvent :=
  if hasHandler a.action then
    (.handler (env.handler a ctx), [.handlerCall a.action, .handlerReturn])
  else
    (.unknownAction a.action, [])

/-- Source `_store_result(automation, result)`: attempt the POST; an exception is
caught and logged, so the call returns normally in both cases. -/
def store_result (o : StoreOutcome) : Unit :=
  match o with
  | .success => ()
  | .failure => ()

/-- Output of one `execute_automation` call: the returned dict, the registry
afterwards, and the trace of externally visible steps. -/
structure ExecOut (R : Type) where
  result : ExecResult R
  engine : AutomationEngine
  trace : List TraceEvent
deriving DecidableEq

/-- Source `execute_automation(automation_id, context)`:
lookup (`NotFound`), enabled check (`Disabled`), then unconditionally:
run `_run_action`, set `last_run = now`, increment `run_count`, attempt
`_store_result`, and return `_run_action`'s result (which may be the
unknown-action error dict). -/
def execute_automation {C R : Type} (env : Env C R) (st : AutomationEngine)
    (automation_id : String) (ctx : C) : ExecOut R :=
  match getAutomation st automation_id with
  | none => ⟨.notFound automation_id, st, []⟩
  | some a =>
    if a.enabled then
      let ra := run_action env a ctx
      let a' := { a with last_run := some env.now, run_count := a.run_count + 1 }
      let st' := setAutomation st a'
      let _ := store_result env.store
      ⟨ra.1, st', ra.2 ++ [.updateLastRun, .updateRunCount, .persistAttempt env.store]⟩
    else
      ⟨.disabled automation_id, st, []⟩

/-- The due test performed by `run_scheduled_automations` for one automation
(§4.2's `is_scheduled_due`): the interval defaults to 24 when
`trigger_config` lacks `interval_hours`; due when there is no prior run, or
when `now` has reached `last_run + interval_hours`. -/
def is_scheduled_due (a : Automation) (now : ℚ) : Bool :=
  let interval_hours := a.trigger_config.interval_hours.getD 24
  match a.last_run with
  | none => true
  | some t => if now < t + interval_hours then false else true

/-- The loop body of `run_scheduled_automations` over the snapshot of
registered automations: skip non-Scheduled and disabled definitions, skip
not-due ones, execute the rest sequentially (with the empty context).
Returns the final registry and the ids executed, in iteration order. -/
def runSchedEach {C R : Type} (env : Env C R) :
    List Automation → AutomationEngine → AutomationEngine × List String
  | [], st => (st, [])
  | a :: rest, st =>
    if a.trigger ≠ .scheduled then runSchedEach env rest st
    else if ¬a.enabled then runSchedEach env rest st
    else if is_scheduled_due a env.now then
      let out := execute_automation env st a.id env.emptyCtx
      let p := runSchedEach env rest out.engine
      (p.1, a.id :: p.2)
    else runSchedEach env rest st

/-- Source `run_scheduled_automations()`. -/
def run_scheduled_automations {C R : Type} (env : Env C R)
    (st : AutomationEngine) : AutomationEngine × List String :=
  runSchedEach env st.automations st

/-- The loop body of `handle_webhook` over the selected automations:
`execute_automation(automation.id, payload)` for each, sequentially, and
collect `{"automation_id": ..., "result": ...}` records. -/
def runEach {C R : Type} (env : Env C R) (payload : C) :
    List Automation → AutomationEngine → List (String × ExecResult R) × AutomationEngine
  | [], st => ([], st)
  | a :: rest, st =>
    let out := execute_automation env st a.id payload
    let p := runEach env payload rest out.engine
    ((a.id, out.result) :: p.1, p.2)

/-- Source `handle_webhook(event_type, payload)`: select every
Event-trigger automation whose `trigger_config.get("event")` equals
`event_type` (there is no enabled filter in this selection), execute each,
and return `{"triggered": len(results), "results": results}`. -/
def handle_webhook {C R : Type} (env : Env C R) (st : AutomationEngine)
    (event_type : String) (payload : C) :
    (Nat × List (String × ExecResult R)) × AutomationEngine :=
  let event_automations := st.automations.filter
    (fun a => a.trigger == .event && a.trigger_config.event == some event_type)
  let (results, st') := runEach env payload event_automations st
  ((results.length, results), st')

/-- One `{"automation_id", "metric", "value", "threshold", "result"}` record
appended by `check_thresholds` for a triggered automation. -/
structure ThresholdRecord (R : Type) where
  automation_id : String
  metric : String
  value : ℚ
  threshold : ℚ
  result : ExecResult R
deriving DecidableEq

/-- Metrics mapping (string → number) handed to `check_thresholds`. -/
abbrev Metrics : Type := List (String × ℚ)

/-- Combination of `metric_name in metrics` and `metrics[metric_name]`. -/
def Metrics.lookup (m : Metrics) (k : String) : Option ℚ :=
  List.lookup k m

/-- Outcome of the `check_thresholds` loop: either it completes with the
triggered records, or the comparison `metrics[metric_name] >= threshold`
raised a `TypeError` because the `threshold` key is missing (`None`), which
aborts the remainder of the loop.  Both constructors carry the registry as
mutated so far (in the source the registry is shared state, so executions
performed before the raise persist). -/
inductive CheckResult (R : Type) where
  | ok (triggered : List (ThresholdRecord R)) (engine : AutomationEngine)
  | typeError (engine : AutomationEngine)
deriving DecidableEq

/-- The loop body of `check_thresholds` over the Threshold-trigger snapshot:
read `metric` and `threshold` from `trigger_config`; skip when the metric is
not configured (`None in metrics` is false) or not present; with the metric
present, evaluate `metrics[metric_name] >= threshold` — when `threshold` is
missing this comparison against `None` raises a `TypeError` that aborts the
whole loop; otherwise, when the value reaches the threshold, execute the
automation (with the metrics as context) and record it. -/
def checkEach {R : Type} (env : Env Metrics R) (metrics : Metrics) :
    List Automation → AutomationEngine → CheckResult R
  | [], st => .ok [] st
  | a :: rest, st =>
    match a.trigger_config.metric with
    | none => checkEach env metrics rest st
    | some metric_name =>
      match metrics.lookup metric_name with
      | none => checkEach env metrics rest st
      | some v =>
        match a.trigger_config.threshold with
        | none => .typeError st
        | some threshold =>
          if threshold ≤ v then
            let out := execute_automation env st a.id metrics
            match checkEach env metrics rest out.engine with
            | .ok tail st' =>
              .ok (⟨a.id, metric_name, v, threshold, out.result⟩ :: tail) st'
            | .typeError st' => .typeError st'
          else checkEach env metrics rest st

/-- Source `check_thresholds(metrics)`: select every Threshold-trigger
automation, run the per-automation check, and return
`{"triggered": len(triggered), "results": triggered}` — unless a missing
`threshold` key made a comparison raise, in which case the `TypeError`
propagates to the caller (`Except.error`, carrying the registry as mutated
before the raise) and no result dict is returned. -/
def check_thresholds {R : Type} (env : Env Metrics R) (st : AutomationEngine)
    (metrics : Metrics) :
    Except AutomationEngine ((Nat × List (ThresholdRecord R)) × AutomationEngine) :=
  let threshold_automations := st.automations.filter (fun a => a.trigger == .threshold)
  match checkEach env metrics threshold_automations st with
  | .ok triggered st' => .ok ((triggered.length, triggered), st')
  | .typeError st' => .error st'

/-- Concrete oracle with unit contexts and unit handler results, clock at 0. -/
def envU : Env Unit Unit := ⟨fun _ _ => (), .success, 0, ()⟩

/-- Concrete oracle with unit contexts, clock at 10. -/
def envT10 : Env Unit Unit := ⟨fun _ _ => (), .success, 10, ()⟩

/-- Concrete oracle with unit contexts, clock at 24. -/
def envT24 : Env Unit Unit := ⟨fun _ _ => (), .success, 24, ()⟩

/-- Concrete oracle over metrics contexts, clock at 0. -/
def envM : Env Metrics Unit := ⟨fun _ _ => (), .success, 0, []⟩

/-- A registered automation whose action has no handler in the dispatch
table. -/
def autoBogus : Automation :=
  { id := "x1", name := "X1", level := .discovery, trigger := .manual,
    trigger_config := {}, action := "bogus_action", ai_providers := [] }

/-- A second automation with an unknown action, for the run-count claims. -/
def autoBogus2 : Automation :=
  { id := "x3", name := "X3", level := .generation, trigger := .manual,
    trigger_config := {}, action := "no_such_action", ai_providers := [] }

/-- An enabled automation with a registered action handler. -/
def autoOk : Automation :=
  { id := "ok1", name := "Copy", level := .optimization, trigger := .manual,
    trigger_config := {}, action := "optimize_copy", ai_providers := ["claude"] }

/-- A disabled automation with a registered action handler. -/
def autoDis : Automation :=
  { id := "d1", name := "Dis", level := .optimization, trigger := .manual,
    trigger_config := {}, action := "optimize_copy", ai_providers := [],
    enabled := false }

/-- A disabled Event-trigger automation listening for event `opp`. -/
def autoEvD : Automation :=
  { id := "ev1", name := "EvD", level := .generation, trigger := .event,
    trigger_config := { event := some "opp" }, action := "enhance_features",
    ai_providers := [], enabled := false }

/-- A Scheduled automation with a 1-hour interval and no prior run. -/
def schedA : Automation :=
  { id := "sch", name := "Sched", level := .discovery, trigger := .scheduled,
    trigger_config := { interval_hours := some 1 }, action := "detect_trends",
    ai_providers := [] }

/-- A Scheduled automation whose `trigger_config` lacks `interval_hours`,
last run at time 0. -/
def schedDef : Automation :=
  { id := "sd", name := "SchedDefault", level := .discovery,
    trigger := .scheduled, trigger_config := {}, action := "detect_trends",
    ai_providers := [], last_run := some 0 }

/-- A Threshold automation on metric `cr` with threshold 2. -/
def threshA : Automation :=
  { id := "th1", name := "Thresh", level := .optimization,
    trigger := .threshold,
    trigger_config := { metric := some "cr", threshold := some 2 },
    action := "optimize_pricing", ai_providers := [] }

/-- A successful registry lookup pins down the entry's id. -/
lemma getAutomation_id {st : AutomationEngine} {id : String} {a : Automation}
    (h : getAutomation st id = some a) : a.id = id := by
  have := List.find?_some h
  simpa using this

/-- List form of `getAutomation_set`: replacing the entry that `find?` located
makes `find?` return the replacement. -/
lemma find?_map_replace (l : List Automation) (id : String) (a a' : Automation)
    (h : l.find? (fun b => b.id == id) = some a) (hid : a'.id = a.id) :
    (l.map (fun b => if b.id == a'.id then a' else b)).find? (fun b => b.id == id)
      = some a' := by
  have haid : a.id = id := by
    have := List.find?_some h
    simpa using this
  induction l with
  | nil => simp at h
  | cons b rest ih =>
    by_cases hb : b.id = id
    · rw [List.find?_cons_of_pos _ (by simp [hb])] at h
      have hba : b = a := by simpa using h
      subst hba
      simp [hid, hb, haid]
    · rw [List.find?_cons_of_neg _ (by simp [hb])] at h
      have hb' : (b.id == a'.id) = false := by
        simp [hid, haid, hb]
      simp only [List.map_cons, hb']
      rw [if_neg (by simp [hid, haid, hb]), List.find?_cons_of_neg _ (by simp [hb])]
      exact ih h

/-- After mutating the entry for the id that `getAutomation` found, lookup
returns the mutated automation. -/
lemma getAutomation_set {st : AutomationEngine} {id : String} {a a' : Automation}
    (h : getAutomation st id = some a) (hid : a'.id = a.id) :
    getAutomation (setAutomation st a') id = some a' :=
  find?_map_replace st.automations id a a' h hid

/-- Mutating the entry for an id that is absent leaves lookups for other ids
untouched; more precisely the updated registry looked up at the executed id. -/
lemma execute_engine_of_enabled {C R : Type} (env : Env C R)
    {st : AutomationEngine} {id : String} {a : Automation} (ctx : C)
    (h : getAutomation st id = some a) (hen : a.enabled = true) :
    (execute_automation env st id ctx).engine =
      setAutomation st { a with last_run := some env.now, run_count := a.run_count + 1 } := by
  unfold execute_automation
  rw [h]
  simp [hen]

/-- C6 helper: unpack the disabled branch of `execute_automation`. -/
lemma execute_of_disabled {C R : Type} (env : Env C R)
    {st : AutomationEngine} {id : String} {a : Automation} (ctx : C)
    (h : getAutomation st id = some a) (hen : a.enabled = false) :
    execute_automation env st id ctx = ⟨.disabled id, st, []⟩ := by
  unfold execute_automation
  rw [h]
  simp [hen]

/-- C7: for every id not present in the registry, `execute_automation` returns
the `NotFound` error and leaves the full registry state (every automation's
fields, including `last_run` and `run_count`) unchanged. -/
theorem execute_not_found_spec {C R : Type} (env : Env C R)
    (st : AutomationEngine) (id : String) (ctx : C)
    (hget : getAutomation st id = none) :
    (execute_automation env st id ctx).result = .notFound id ∧
    (execute_automation env st id ctx).engine = st := by
  unfold execute_automation
  rw [hget]
  exact ⟨rfl, rfl⟩

/-- C7 witness: executing an id absent from a concrete registry. -/
theorem execute_not_found_spec_witness :
    (execute_automation envU ⟨[autoOk]⟩ "missing" ()).result = .notFound "missing" ∧
    (execute_automation envU ⟨[autoOk]⟩ "missing" ()).engine = ⟨[autoOk]⟩ :=
  execute_not_found_spec envU ⟨[autoOk]⟩ "missing" () (by decide)

/-- C6: for every registered automation with `enabled = false`,
`execute_automation` returns the `Disabled` error, invokes no handler, and
leaves that automation's `last_run` and `run_count` (indeed the whole
registry) unchanged. -/
theorem execute_disabled_spec {C R : Type} (env : Env C R)
    (st : AutomationEngine) (id : String) (ctx : C) (a : Automation)
    (hget : getAutomation st id = some a) (hen : a.enabled = false) :
    (execute_automation env st id ctx).result = .disabled id ∧
    (execute_automation env st id ctx).engine = st ∧
    (∀ s, TraceEvent.handlerCall s ∉ (execute_automation env st id ctx).trace) ∧
    (getAutomation (execute_automation env st id ctx).engine id).map
      (fun x => (x.last_run, x.run_count)) = some (a.last_run, a.run_count) := by
  rw [execute_of_disabled env ctx hget hen]
  refine ⟨rfl, rfl, by simp, ?_⟩
  simp [hget]

/-- C6 witness: executing a concrete disabled automation. -/
theorem execute_disabled_spec_witness :
    (execute_automation envU ⟨[autoDis]⟩ "d1" ()).result = .disabled "d1" ∧
    (execute_automation envU ⟨[autoDis]⟩ "d1" ()).engine = ⟨[autoDis]⟩ ∧
    (∀ s, TraceEvent.handlerCall s ∉ (execute_automation envU ⟨[autoDis]⟩ "d1" ()).trace) ∧
    (getAutomation (execute_automation envU ⟨[autoDis]⟩ "d1" ()).engine "d1").map
      (fun x => (x.last_run, x.run_count)) = some (autoDis.last_run, autoDis.run_count) :=
  execute_disabled_spec envU ⟨[autoDis]⟩ "d1" () autoDis (by decide) rfl

/-- C8: the dispatch outcome is independent of persistence availability — for
the same handler oracle and clock, `execute_automation` returns the same
result (and registry) whether the persistence store succeeds or fails. -/
theorem execute_persistence_independent {C R : Type}
    (handler : Automation → C → R) (now : ℚ) (emp : C)
    (o₁ o₂ : StoreOutcome) (st : AutomationEngine) (id : String) (ctx : C) :
    (execute_automation ⟨handler, o₁, now, emp⟩ st id ctx).result =
      (execute_automation ⟨handler, o₂, now, emp⟩ st id ctx).result ∧
    (execute_automation ⟨handler, o₁, now, emp⟩ st id ctx).engine =
      (execute_automation ⟨handler, o₂, now, emp⟩ st id ctx).engine := by
  unfold execute_automation
  cases hg : getAutomation st id with
  | none => exact ⟨rfl, rfl⟩
  | some a =>
    by_cases he : a.enabled <;> simp [he, run_action]

/-- C9: within a single `execute_automation` call that reaches the handler,
the `last_run`/`run_count` updates happen strictly after the handler call
returns and strictly before the persistence attempt. -/
theorem execute_update_ordering {C R : Type} (env : Env C R)
    (st : AutomationEngine) (id : String) (ctx : C) (a : Automation)
    (hget : getAutomation st id = some a) (hen : a.enabled = true)
    (hh : hasHandler a.action = true) :
    (execute_automation env st id ctx).trace =
      [.handlerCall a.action, .handlerReturn, .updateLastRun, .updateRunCount,
       .persistAttempt env.store] ∧
    ∃ i j k l : Nat, i < j ∧ i < k ∧ j < l ∧ k < l ∧
      (execute_automation env st id ctx).trace.get? i = some .handlerReturn ∧
      (execute_automation env st id ctx).trace.get? j = some .updateLastRun ∧
      (execute_automation env st id ctx).trace.get? k = some .updateRunCount ∧
      (execute_automation env st id ctx).trace.get? l =
        some (.persistAttempt env.store) := by
  have htr : (execute_automation env st id ctx).trace =
      [.handlerCall a.action, .handlerReturn, .updateLastRun, .updateRunCount,
       .persistAttempt env.store] := by
    unfold execute_automation
    rw [hget]
    simp [hen, run_action, hh]
  refine ⟨htr, 1, 2, 3, 4, by omega, by omega, by omega, by omega, ?_, ?_, ?_, ?_⟩ <;>
    rw [htr] <;> rfl

/-- C9 witness: a concrete enabled automation with a registered handler. -/
theorem execute_update_ordering_witness :
    (execute_automation envU ⟨[autoOk]⟩ "ok1" ()).trace =
      [.handlerCall autoOk.action, .handlerReturn, .updateLastRun,
       .updateRunCount, .persistAttempt envU.store] ∧
    ∃ i j k l : Nat, i < j ∧ i < k ∧ j < l ∧ k < l ∧
      (execute_automation envU ⟨[autoOk]⟩ "ok1" ()).trace.get? i = some .handlerReturn ∧
      (execute_automation envU ⟨[autoOk]⟩ "ok1" ()).trace.get? j = some .updateLastRun ∧
      (execute_automation envU ⟨[autoOk]⟩ "ok1" ()).trace.get? k = some .updateRunCount ∧
      (execute_automation envU ⟨[autoOk]⟩ "ok1" ()).trace.get? l =
        some (.persistAttempt envU.store) :=
  execute_update_ordering envU ⟨[autoOk]⟩ "ok1" () autoOk (by decide) rfl (by decide)

/-- C1 counterexample: on a registered, enabled automation whose action has no
handler, `execute_automation` does return the unknown-action error, but it
mutates `last_run` (0 here) and `run_count` (0 → 1) and it does reach the
persistence store — contradicting "without mutating ... and without invoking
persistence". -/
theorem execute_unknown_action_counterexample :
    (execute_automation envU ⟨[autoBogus]⟩ "x1" ()).result = .unknownAction "bogus_action" ∧
    (getAutomation (execute_automation envU ⟨[autoBogus]⟩ "x1" ()).engine "x1").map
      (fun a => (a.run_count, a.last_run)) = some (1, some 0) ∧
    TraceEvent.persistAttempt .success ∈ (execute_automation envU ⟨[autoBogus]⟩ "x1" ()).trace := by
  decide

/-- C1 amended: for every registered, enabled automation whose action has no
handler in the dispatch table, `execute_automation` returns the
`UnknownAction` error and invokes no handler, but it still sets
`last_run = now`, increments `run_count`, and makes the persistence attempt
(the error dict is treated like a handler result). -/
theorem execute_unknown_action_spec {C R : Type} (env : Env C R)
    (st : AutomationEngine) (id : String) (ctx : C) (a : Automation)
    (hget : getAutomation st id = some a) (hen : a.enabled = true)
    (hh : hasHandler a.action = false) :
    (execute_automation env st id ctx).result = .unknownAction a.action ∧
    getAutomation (execute_automation env st id ctx).engine id =
      some { a with last_run := some env.now, run_count := a.run_count + 1 } ∧
    (execute_automation env st id ctx).trace =
      [.updateLastRun, .updateRunCount, .persistAttempt env.store] := by
  refine ⟨?_, ?_, ?_⟩
  · unfold execute_automation
    rw [hget]
    simp [hen, run_action, hh]
  · rw [execute_engine_of_enabled env ctx hget hen]
    exact getAutomation_set hget rfl
  · unfold execute_automation
    rw [hget]
    simp [hen, run_action, hh]

/-- C1 amended witness: the concrete bogus-action automation. -/
theorem execute_unknown_action_spec_witness :
    (execute_automation envU ⟨[autoBogus]⟩ "x1" ()).result = .unknownAction autoBogus.action ∧
    getAutomation (execute_automation envU ⟨[autoBogus]⟩ "x1" ()).engine "x1" =
      some { autoBogus with
        last_run := some envU.now, run_count := autoBogus.run_count + 1 } ∧
    (execute_automation envU ⟨[autoBogus]⟩ "x1" ()).trace =
      [.updateLastRun, .updateRunCount, .persistAttempt envU.store] :=
  execute_unknown_action_spec envU ⟨[autoBogus]⟩ "x1" () autoBogus (by decide) rfl rfl

/-- C3 counterexample: an enabled automation whose action is unknown is a
rejected dispatch in the claim's classification, yet its `run_count` goes from
0 to 1. -/
theorem run_count_unknown_action_counterexample :
    hasHandler autoBogus2.action = false ∧
    (execute_automation envU ⟨[autoBogus2]⟩ "x3" ()).result = .unknownAction "no_such_action" ∧
    (getAutomation (execute_automation envU ⟨[autoBogus2]⟩ "x3" ()).engine "x3").map
      (fun x => x.run_count) = some 1 := by
  decide

/-- C3 amended: `run_count` increases by exactly 1 per dispatch that passes
the lookup and enabled checks (handler invoked — success or handler-reported
error — or unknown action), and by 0 when the dispatch is rejected for an
unknown id or a disabled automation. -/
theorem run_count_spec {C R : Type} (env : Env C R) (st : AutomationEngine)
    (id : String) (ctx : C) :
    (getAutomation st id = none → (execute_automation env st id ctx).engine = st) ∧
    (∀ a, getAutomation st id = some a → a.enabled = false →
      (execute_automation env st id ctx).engine = st) ∧
    (∀ a, getAutomation st id = some a → a.enabled = true →
      (getAutomation (execute_automation env st id ctx).engine id).map
        (fun x => x.run_count) = some (a.run_count + 1)) := by
  refine ⟨?_, ?_, ?_⟩
  · intro h
    unfold execute_automation
    rw [h]
  · intro a hget hen
    rw [execute_of_disabled env ctx hget hen]
  · intro a hget hen
    have h2 : getAutomation
        (setAutomation st { a with last_run := some env.now, run_count := a.run_count + 1 }) id =
        some { a with last_run := some env.now, run_count := a.run_count + 1 } :=
      getAutomation_set hget rfl
    rw [execute_engine_of_enabled env ctx hget hen, h2]
    rfl

/-- C3 amended witness: a found, enabled automation's counter goes 0 → 1. -/
theorem run_count_spec_witness :
    (getAutomation (execute_automation envU ⟨[autoOk]⟩ "ok1" ()).engine "ok1").map
      (fun x => x.run_count) = some (autoOk.run_count + 1) :=
  (run_count_spec envU ⟨[autoOk]⟩ "ok1" ()).2.2 autoOk (by decide) rfl

/-- C4: for a Scheduled automation with `interval_hours = h`, no prior run
means due at any `now`; and after `execute_automation` runs it at time
`env.now` (= t0), the registry entry is due exactly for `now ≥ t0 + h` —
in particular not due for any `now < t0 + h`. -/
theorem scheduled_due_spec {C R : Type} (env : Env C R)
    (st : AutomationEngine) (id : String) (ctx : C) (a : Automation) (h : ℚ)
    (hget : getAutomation st id = some a) (hen : a.enabled = true)
    (hint : a.trigger_config.interval_hours = some h) :
    (a.last_run = none → ∀ now, is_scheduled_due a now = true) ∧
    getAutomation (execute_automation env st id ctx).engine id =
      some { a with last_run := some env.now, run_count := a.run_count + 1 } ∧
    (∀ now, is_scheduled_due
        { a with last_run := some env.now, run_count := a.run_count + 1 } now = true ↔
      env.now + h ≤ now) := by
  refine ⟨?_, ?_, ?_⟩
  · intro hlr now
    simp [is_scheduled_due, hlr]
  · rw [execute_engine_of_enabled env ctx hget hen]
    exact getAutomation_set hget rfl
  · intro now
    simp only [is_scheduled_due, hint, Option.getD_some]
    by_cases hc : now < env.now + h
    · simp [hc, not_le.mpr hc]
    · simp [hc, not_lt.mp hc]

/-- C4 witness: a 1-hour-interval automation with no prior run, executed at
time 10; due again exactly from time 11 on. -/
theorem scheduled_due_spec_witness :
    (schedA.last_run = none → ∀ now, is_scheduled_due schedA now = true) ∧
    getAutomation (execute_automation envT10 ⟨[schedA]⟩ "sch" ()).engine "sch" =
      some { schedA with
        last_run := some envT10.now, run_count := schedA.run_count + 1 } ∧
    (∀ now, is_scheduled_due
        { schedA with
          last_run := some envT10.now, run_count := schedA.run_count + 1 } now = true ↔
      envT10.now + 1 ≤ now) :=
  scheduled_due_spec envT10 ⟨[schedA]⟩ "sch" () schedA 1 (by decide) rfl rfl

/-- The fan-out loop emits one record per selected automation, carrying
exactly the selected ids in order. -/
lemma runEach_map_fst {C R : Type} (env : Env C R) (payload : C) :
    ∀ (l : List Automation) (st : AutomationEngine),
      ((runEach env payload l st).1).map Prod.fst = l.map (fun a => a.id)
  | [], _ => rfl
  | a :: rest, st => by
    simp only [runEach, List.map_cons]
    exact congrArg _ (runEach_map_fst env payload rest _)

/-- C2 counterexample: a registry whose only automation is a disabled
Event-trigger automation for event `opp`; the claim says only enabled ones
are selected (so `triggered` would be 0), but the code selects it, reports
`triggered = 1`, and its result is the `Disabled` error. -/
theorem handle_webhook_counterexample :
    autoEvD.enabled = false ∧
    (handle_webhook envU ⟨[autoEvD]⟩ "opp" ()).1.1 = 1 ∧
    (handle_webhook envU ⟨[autoEvD]⟩ "opp" ()).1.2 =
      [("ev1", .disabled "ev1")] := by
  decide

/-- C2 amended: `handle_webhook` selects exactly the Event-trigger
automations — enabled or not — whose configured event name equals the given
event type, executes each sequentially (a disabled one yields the `Disabled`
error as its per-automation result), and returns the count of those selected
together with the per-automation results. -/
theorem handle_webhook_spec {C R : Type} (env : Env C R)
    (st : AutomationEngine) (e : String) (payload : C) :
    (handle_webhook env st e payload).1.1 =
      (st.automations.filter
        (fun a => a.trigger == .event && a.trigger_config.event == some e)).length ∧
    ((handle_webhook env st e payload).1.2).map Prod.fst =
      (st.automations.filter
        (fun a => a.trigger == .event && a.trigger_config.event == some e)).map
        (fun a => a.id) ∧
    (handle_webhook env st e payload).1.1 =
      ((handle_webhook env st e payload).1.2).length := by
  have hfst := runEach_map_fst env payload
    (st.automations.filter
      (fun a => a.trigger == .event && a.trigger_config.event == some e)) st
  have hlen : ((runEach env payload
      (st.automations.filter
        (fun a => a.trigger == .event && a.trigger_config.event == some e)) st).1).length =
      (st.automations.filter
        (fun a => a.trigger == .event && a.trigger_config.event == some e)).length := by
    have := congrArg List.length hfst
    simpa using this
  exact ⟨hlen, hfst, rfl⟩

/-- When every automation in the list has a configured `threshold` (the §3
data-model requirement for Threshold triggers), the threshold loop completes
without raising. -/
lemma checkEach_ok {R : Type} (env : Env Metrics R) (metrics : Metrics) :
    ∀ (l : List Automation) (st : AutomationEngine),
      (∀ b ∈ l, b.trigger_config.threshold ≠ none) →
      ∃ recs st', checkEach env metrics l st = .ok recs st'
  | [], st => fun _ => ⟨[], st, rfl⟩
  | b :: rest, st => by
    intro hwf
    have hwfr : ∀ x ∈ rest, x.trigger_config.threshold ≠ none :=
      fun x hx => hwf x (List.mem_cons_of_mem _ hx)
    simp only [checkEach]
    cases hbm : b.trigger_config.metric with
    | none =>
      dsimp only
      exact checkEach_ok env metrics rest st hwfr
    | some bm =>
      dsimp only
      cases hbv : Metrics.lookup metrics bm with
      | none =>
        dsimp only
        exact checkEach_ok env metrics rest st hwfr
      | some bv =>
        dsimp only
        cases hbt : b.trigger_config.threshold with
        | none => exact absurd hbt (hwf b (List.mem_cons_self _ _))
        | some bt =>
          dsimp only
          by_cases hble : bt ≤ bv
          · rw [if_pos hble]
            obtain ⟨tail, st', heq⟩ := checkEach_ok env metrics rest
              (execute_automation env st b.id metrics).engine hwfr
            rw [heq]
            exact ⟨_, st', rfl⟩
          · rw [if_neg hble]
            exact checkEach_ok env metrics rest st hwfr

/-- Every record a completed threshold loop emits names an automation from
the list it was given. -/
lemma checkEach_ids {R : Type} (env : Env Metrics R) (metrics : Metrics) :
    ∀ (l : List Automation) (st : AutomationEngine)
      (recs : List (ThresholdRecord R)) (st' : AutomationEngine)
      (r : ThresholdRecord R),
      checkEach env metrics l st = .ok recs st' → r ∈ recs →
      r.automation_id ∈ l.map (fun x => x.id)
  | [], st, recs, st', r => by
    intro heq hr
    simp only [checkEach] at heq
    cases heq
    simp at hr
  | a :: rest, st, recs, st', r => by
    intro heq hr
    simp only [checkEach] at heq
    cases hm : a.trigger_config.metric with
    | none =>
      rw [hm] at heq
      dsimp only at heq
      exact List.mem_cons_of_mem _ (checkEach_ids env metrics rest st recs st' r heq hr)
    | some m =>
      rw [hm] at heq
      dsimp only at heq
      cases hv : Metrics.lookup metrics m with
      | none =>
        rw [hv] at heq
        dsimp only at heq
        exact List.mem_cons_of_mem _ (checkEach_ids env metrics rest st recs st' r heq hr)
      | some v =>
        rw [hv] at heq
        dsimp only at heq
        cases ht : a.trigger_config.threshold with
        | none =>
          rw [ht] at heq
          dsimp only at heq
          cases heq
        | some t =>
          rw [ht] at heq
          dsimp only at heq
          by_cases hle : t ≤ v
          · rw [if_pos hle] at heq
            cases hrec : checkEach env metrics rest
                (execute_automation env st a.id metrics).engine with
            | ok tail st2 =>
              rw [hrec] at heq
              dsimp only at heq
              cases heq
              rcases List.mem_cons.mp hr with rfl | hrt
              · simp
              · exact List.mem_cons_of_mem _
                  (checkEach_ids env metrics rest _ tail st' r hrec hrt)
            | typeError st2 =>
              rw [hrec] at heq
              dsimp only at heq
              cases heq
          · rw [if_neg hle] at heq
            exact List.mem_cons_of_mem _ (checkEach_ids env metrics rest st recs st' r heq hr)

/-- For an automation with configured metric `m` and threshold `t` inside a
duplicate-free list in which every member has a configured threshold, the
threshold loop completes and emits a record for the automation exactly when
the metrics mapping contains `m` with a value `≥ t`. -/
lemma checkEach_mem_iff {R : Type} (env : Env Metrics R) (metrics : Metrics)
    (a : Automation) (m : String) (t : ℚ)
    (hm : a.trigger_config.metric = some m)
    (ht : a.trigger_config.threshold = some t) :
    ∀ (l : List Automation) (st : AutomationEngine),
      (l.map (fun x => x.id)).Nodup → a ∈ l →
      (∀ b ∈ l, b.trigger_config.threshold ≠ none) →
      ∃ recs st', checkEach env metrics l st = .ok recs st' ∧
        ((∃ r ∈ recs, r.automation_id = a.id) ↔
          ∃ v, Metrics.lookup metrics m = some v ∧ t ≤ v)
  | [], st => by intro _ h _; exact absurd h (List.not_mem_nil a)
  | b :: rest, st => by
    intro hnd hal hwf
    rw [List.map_cons, List.nodup_cons] at hnd
    have hwfr : ∀ x ∈ rest, x.trigger_config.threshold ≠ none :=
      fun x hx => hwf x (List.mem_cons_of_mem _ hx)
    rcases List.mem_cons.mp hal with rfl | har
    · simp only [checkEach, hm, ht]
      cases hv : Metrics.lookup metrics m with
      | none =>
        dsimp only
        obtain ⟨recs, st', heq⟩ := checkEach_ok env metrics rest st hwfr
        refine ⟨recs, st', heq, ?_⟩
        constructor
        · rintro ⟨r, hr, hid⟩
          exact absurd (hid ▸ checkEach_ids env metrics rest st recs st' r heq hr) hnd.1
        · rintro ⟨v, hveq, _⟩
          cases hveq
      | some v =>
        dsimp only
        by_cases hle : t ≤ v
        · rw [if_pos hle]
          obtain ⟨tail, st', heq⟩ := checkEach_ok env metrics rest
            (execute_automation env st a.id metrics).engine hwfr
          rw [heq]
          dsimp only
          refine ⟨_, st', rfl, ?_⟩
          constructor
          · intro _
            exact ⟨v, rfl, hle⟩
          · intro _
            exact ⟨⟨a.id, m, v, t, (execute_automation env st a.id metrics).result⟩,
              List.mem_cons_self _ _, rfl⟩
        · rw [if_neg hle]
          obtain ⟨recs, st', heq⟩ := checkEach_ok env metrics rest st hwfr
          refine ⟨recs, st', heq, ?_⟩
          constructor
          · rintro ⟨r, hr, hid⟩
            exact absurd (hid ▸ checkEach_ids env metrics rest st recs st' r heq hr) hnd.1
          · rintro ⟨v', hveq, hle'⟩
            cases hveq
            exact absurd hle' hle
    · have haid : a.id ∈ rest.map (fun x => x.id) := List.mem_map.mpr ⟨a, har, rfl⟩
      have hne : b.id ≠ a.id := fun h => hnd.1 (h ▸ haid)
      have IH := checkEach_mem_iff env metrics a m t hm ht rest
      simp only [checkEach]
      cases hbm : b.trigger_config.metric with
      | none =>
        dsimp only
        exact IH st hnd.2 har hwfr
      | some bm =>
        dsimp only
        cases hbv : Metrics.lookup metrics bm with
        | none =>
          dsimp only
          exact IH st hnd.2 har hwfr
        | some bv =>
          dsimp only
          cases hbt : b.trigger_config.threshold with
          | none => exact absurd hbt (hwf b (List.mem_cons_self _ _))
          | some bt =>
            dsimp only
            by_cases hble : bt ≤ bv
            · rw [if_pos hble]
              obtain ⟨recs, st', heq, hiff⟩ :=
                IH (execute_automation env st b.id metrics).engine hnd.2 har hwfr
              rw [heq]
              dsimp only
              refine ⟨_, st', rfl, ?_⟩
              constructor
              · rintro ⟨r, hr, hid⟩
                rcases List.mem_cons.mp hr with rfl | hrt
                · exact absurd hid hne
                · exact hiff.mp ⟨r, hrt, hid⟩
              · intro hrh
                rcases hiff.mpr hrh with ⟨r, hrt, hid⟩
                exact ⟨r, List.mem_cons_of_mem _ hrt, hid⟩
            · rw [if_neg hble]
              exact IH st hnd.2 har hwfr

/-- C5: over a registry obeying the §3 data-model requirement that every
Threshold automation has a configured threshold (without it the source
raises a `TypeError` and `check_thresholds` returns no result at all),
`check_thresholds` completes and triggers a Threshold automation (with
configured metric `m` and threshold `t`) iff the metrics mapping contains
`m` and the observed value is `≥ t`; a value exactly equal to the threshold
triggers. -/
theorem check_thresholds_spec {R : Type} (env : Env Metrics R)
    (st : AutomationEngine) (metrics : Metrics) (a : Automation)
    (m : String) (t : ℚ)
    (hnd : (st.automations.map (fun x => x.id)).Nodup)
    (hal : a ∈ st.automations) (htr : a.trigger = .threshold)
    (hm : a.trigger_config.metric = some m)
    (ht : a.trigger_config.threshold = some t)
    (hwf : ∀ b ∈ st.automations, b.trigger = AutomationTrigger.threshold →
      b.trigger_config.threshold ≠ none) :
    ∃ recs st',
      check_thresholds env st metrics = .ok ((recs.length, recs), st') ∧
      ((∃ r ∈ recs, r.automation_id = a.id) ↔
        ∃ v, Metrics.lookup metrics m = some v ∧ t ≤ v) := by
  have hsub : List.Sublist
      ((st.automations.filter (fun x => x.trigger == .threshold)).map (fun x => x.id))
      (st.automations.map (fun x => x.id)) :=
    (List.filter_sublist _).map _
  have hfnd := hnd.sublist hsub
  have hmem : a ∈ st.automations.filter (fun x => x.trigger == .threshold) :=
    List.mem_filter.mpr ⟨hal, by simp [htr]⟩
  have hwfl : ∀ b ∈ st.automations.filter (fun x => x.trigger == .threshold),
      b.trigger_config.threshold ≠ none := by
    intro b hb
    have hb' := List.mem_filter.mp hb
    exact hwf b hb'.1 (by simpa using hb'.2)
  obtain ⟨recs, st', heq, hiff⟩ :=
    checkEach_mem_iff env metrics a m t hm ht _ st hfnd hmem hwfl
  refine ⟨recs, st', ?_, hiff⟩
  simp only [check_thresholds, heq]

/-- C5 witness: metric `cr` observed exactly at the threshold value 2
triggers the concrete (well-configured) Threshold automation. -/
theorem check_thresholds_spec_witness :
    ∃ recs st',
      check_thresholds envM ⟨[threshA]⟩ [("cr", 2)] = .ok ((recs.length, recs), st') ∧
      ((∃ r ∈ recs, r.automation_id = threshA.id) ↔
        ∃ v, Metrics.lookup [("cr", 2)] "cr" = some v ∧ 2 ≤ v) :=
  check_thresholds_spec envM ⟨[threshA]⟩ [("cr", 2)] threshA "cr" 2
    (by decide) (by decide) rfl rfl rfl (by decide)

/-- Every id the scheduling loop reports as executed comes from the list it
was given. -/
lemma runSchedEach_ids {C R : Type} (env : Env C R) :
    ∀ (l : List Automation) (st : AutomationEngine) (x : String),
      x ∈ (runSchedEach env l st).2 → x ∈ l.map (fun a => a.id)
  | [], st, x => by simp [runSchedEach]
  | a :: rest, st, x => by
    intro hx
    simp only [runSchedEach] at hx
    by_cases h1 : a.trigger ≠ AutomationTrigger.scheduled
    · rw [if_pos h1] at hx
      exact List.mem_cons_of_mem _ (runSchedEach_ids env rest st x hx)
    · rw [if_neg h1] at hx
      by_cases h2 : ¬a.enabled
      · rw [if_pos h2] at hx
        exact List.mem_cons_of_mem _ (runSchedEach_ids env rest st x hx)
      · rw [if_neg h2] at hx
        by_cases h3 : is_scheduled_due a env.now
        · rw [if_pos h3] at hx
          rcases List.mem_cons.mp hx with rfl | hxt
          · simp
          · exact List.mem_cons_of_mem _ (runSchedEach_ids env rest _ x hxt)
        · rw [if_neg h3] at hx
          exact List.mem_cons_of_mem _ (runSchedEach_ids env rest st x hx)

/-- For an automation inside a duplicate-free list, the scheduling loop
executes it exactly when it is Scheduled, enabled and due. -/
lemma runSchedEach_mem_iff {C R : Type} (env : Env C R) (a : Automation) :
    ∀ (l : List Automation) (st : AutomationEngine),
      (l.map (fun x => x.id)).Nodup → a ∈ l →
      (a.id ∈ (runSchedEach env l st).2 ↔
        (a.trigger = .scheduled ∧ a.enabled = true ∧ is_scheduled_due a env.now = true))
  | [], st => by intro _ h; exact absurd h (List.not_mem_nil a)
  | b :: rest, st => by
    intro hnd hal
    rw [List.map_cons, List.nodup_cons] at hnd
    rcases List.mem_cons.mp hal with rfl | har
    · simp only [runSchedEach]
      by_cases h1 : a.trigger ≠ AutomationTrigger.scheduled
      · rw [if_pos h1]
        constructor
        · intro hx
          exact absurd (runSchedEach_ids env rest st a.id hx) hnd.1
        · rintro ⟨htr, _, _⟩
          exact absurd htr h1
      · rw [if_neg h1]
        by_cases h2 : ¬a.enabled
        · rw [if_pos h2]
          constructor
          · intro hx
            exact absurd (runSchedEach_ids env rest st a.id hx) hnd.1
          · rintro ⟨_, hen, _⟩
            exact absurd hen h2
        · rw [if_neg h2]
          by_cases h3 : is_scheduled_due a env.now
          · rw [if_pos h3]
            constructor
            · intro _
              exact ⟨not_not.mp h1, not_not.mp h2, h3⟩
            · intro _
              exact List.mem_cons_self _ _
          · rw [if_neg h3]
            constructor
            · intro hx
              exact absurd (runSchedEach_ids env rest st a.id hx) hnd.1
            · rintro ⟨_, _, hdue⟩
              exact absurd hdue h3
    · have haid : a.id ∈ rest.map (fun x => x.id) := List.mem_map.mpr ⟨a, har, rfl⟩
      have hne : b.id ≠ a.id := fun h => hnd.1 (h ▸ haid)
      have IH := runSchedEach_mem_iff env a rest
      simp only [runSchedEach]
      by_cases h1 : b.trigger ≠ AutomationTrigger.scheduled
      · rw [if_pos h1]
        exact IH st hnd.2 har
      · rw [if_neg h1]
        by_cases h2 : ¬b.enabled
        · rw [if_pos h2]
          exact IH st hnd.2 har
        · rw [if_neg h2]
          by_cases h3 : is_scheduled_due b env.now
          · rw [if_pos h3]
            constructor
            · intro hx
              rcases List.mem_cons.mp hx with hba | hxt
              · exact absurd hba.symm hne
              · exact (IH _ hnd.2 har).mp hxt
            · intro hrh
              exact List.mem_cons_of_mem _ ((IH _ hnd.2 har).mpr hrh)
          · rw [if_neg h3]
            exact IH st hnd.2 har

/-- C10: a Scheduled automation whose `trigger_config` lacks `interval_hours`
is still evaluated by `run_scheduled_automations` with a default interval of
24 hours: with a prior run at `t`, it is executed exactly when
`now ≥ t + 24` (rather than being skipped or reported as an error). -/
theorem run_scheduled_default_interval {C R : Type} (env : Env C R)
    (st : AutomationEngine) (a : Automation) (t : ℚ)
    (hnd : (st.automations.map (fun x => x.id)).Nodup)
    (hal : a ∈ st.automations)
    (htr : a.trigger = .scheduled) (hen : a.enabled = true)
    (hint : a.trigger_config.interval_hours = none)
    (hlr : a.last_run = some t) :
    a.id ∈ (run_scheduled_automations env st).2 ↔ t + 24 ≤ env.now := by
  rw [run_scheduled_automations,
    runSchedEach_mem_iff env a st.automations st hnd hal]
  constructor
  · rintro ⟨_, _, hdue⟩
    simp only [is_scheduled_due, hint, hlr, Option.getD_none] at hdue
    by_cases hc : env.now < t + 24
    · rw [if_pos hc] at hdue
      cases hdue
    · exact not_lt.mp hc
  · intro hle
    refine ⟨htr, hen, ?_⟩
    simp [is_scheduled_due, hint, hlr, not_lt.mpr hle]

/-- C10 witness: the default-interval automation last run at 0 is executed at
`now = 24` (the 24-hour default boundary). -/
theorem run_scheduled_default_interval_witness :
    schedDef.id ∈ (run_scheduled_automations envT24 ⟨[schedDef]⟩).2 ↔
      (0 : ℚ) + 24 ≤ envT24.now :=
  run_scheduled_default_interval envT24 ⟨[schedDef]⟩ schedDef 0
    (by decide) (by decide) rfl rfl rfl rfl

end BrainOps
